import Mathlib

/-!
Shallow embedding of the MLB split-statistics pipeline in `app/hitter/stats.py`:
the fetchers `get_player_id`, `get_baseball_savant_data`, `get_combined_split_data`,
the aggregator `get_detailed_pitch_splits`, the notable-splits portion of
`generate_performance_summary`, and the career-file merge of `update_career_files`.

Modelling conventions:
* The network boundary is an environment `Env : FetchParams → Response` mapping the
  query parameters of one remote call to the HTTP response it yields; a `Response`
  carries the status code and the parsed CSV body (`pandas.read_csv` result),
  modelled as the list of present column names plus the first row's value at each
  column (a rational number).
* Python floats are modelled as rationals; `str(x)` of a rate stat and the literal
  string "N/A" are together modelled by `RateVal` (`num q` for a numeric string,
  `na` for "N/A"); `float(...)` applied to such a string recovers the rational.
* `int(x)` is truncation toward zero (`pyInt`); Python's `round(x, 3)` is
  round-half-to-even at the third decimal (`round3`).
* Python dicts built by insertion are association lists in insertion order; all
  keys the pipeline generates are distinct, so first-match lookup is dict lookup.
* Timestamp fields (`lastUpdated` inside fetched records) and the display-only
  optional whiff fields are not part of the model; no claim mentions them.
-/

/-- Python `int(...)` on a (nonnegative-or-negative) float: truncation toward zero. -/
def pyInt (q : ℚ) : ℤ := if 0 ≤ q then ⌊q⌋ else ⌈q⌉

/-- Round-half-to-even on a rational, mirroring Python's `round` tie-breaking. -/
def roundHalfEven (q : ℚ) : ℤ :=
  let n : ℤ := ⌊q⌋
  if q - n < 1 / 2 then n
  else if 1 / 2 < q - n then n + 1
  else if n % 2 = 0 then n else n + 1

/-- Python `round(x, 3)`: round to three decimal places, ties to even. -/
def round3 (q : ℚ) : ℚ := (roundHalfEven (q * 1000) : ℚ) / 1000

/-- The value of a rate-stat field in a stored record: either the string of a
number (`str(data[col].values[0])`) or the literal "N/A" marker. -/
inductive RateVal where
  | na : RateVal
  | num (q : ℚ) : RateVal
deriving DecidableEq

/-- `float(...)` applied to the stored string; only ever used on non-"N/A" values. -/
def RateVal.toRat : RateVal → ℚ
  | .na => 0
  | .num q => q

/-- The parsed CSV body of a response: whether `data.empty`, which columns are
present, and the first row's numeric value at each column. -/
structure Csv where
  isEmpty : Bool
  cols : List String
  val : String → ℚ

/-- One HTTP response from the CSV export service. -/
structure Response where
  status : ℕ
  csv : Csv

/-- The split parameters of one remote call (the `params` dict of
`get_combined_split_data`): optional pitch type, pitcher handedness, home/road. -/
structure FetchParams where
  pitch_type : Option String
  pitcher_throws : Option String
  home_road : Option String
deriving DecidableEq

/-- The remote service as seen by the pipeline: each parameter combination
deterministically yields one response. -/
def Env : Type := FetchParams → Response

/-- `required_columns` checked by `get_baseball_savant_data`. -/
def required_columns : List String :=
  ["ba", "slg", "obp", "hrs", "singles", "doubles", "triples", "so", "bb", "abs", "pa"]

/-- The stats dict built by `get_baseball_savant_data` (all columns are required
there, so every rate stat is numeric). -/
structure SavantRecord where
  avg : ℚ
  slg : ℚ
  obp : ℚ
  ops : ℚ
  homeRuns : ℤ
  singles : ℤ
  doubles : ℤ
  triples : ℤ
  strikeOuts : ℤ
  baseOnBalls : ℤ
  atBats : ℤ
  plateAppearances : ℤ
deriving DecidableEq

/-- `get_baseball_savant_data` (stats.py lines 29-103), applied to the response
the remote returns for its query.  `split_name` is only assigned when
`parameter_name` is `pitcher_throws` or `home_road`; in every branch that prints
`split_name` with it unassigned, Python raises `NameError`, the `except` catches
it, and the function returns `None` - so with any other `parameter_name` the
function never returns a record. -/
def get_baseball_savant_data (parameter_name parameter_value : String)
    (response : Response) : Option SavantRecord :=
  let split_name : Option String :=
    if parameter_name = "pitcher_throws" then some ("vs " ++ parameter_value ++ "HP")
    else if parameter_name = "home_road" then
      some (if parameter_value = "Home" then "Home" else "Away")
    else none
  if response.status = 200 then
    if response.csv.isEmpty = false then
      if required_columns.all (fun c => c ∈ response.csv.cols) then
        -- success path still prints `split_name`; NameError -> except -> None
        match split_name with
        | none => none
        | some _ =>
          some {
            avg := response.csv.val "ba"
            slg := response.csv.val "slg"
            obp := response.csv.val "obp"
            ops := response.csv.val "obp" + response.csv.val "slg"  -- Calculate OPS
            homeRuns := pyInt (response.csv.val "hrs")
            singles := pyInt (response.csv.val "singles")
            doubles := pyInt (response.csv.val "doubles")
            triples := pyInt (response.csv.val "triples")
            strikeOuts := pyInt (response.csv.val "so")
            baseOnBalls := pyInt (response.csv.val "bb")
            atBats := pyInt (response.csv.val "abs")
            plateAppearances := pyInt (response.csv.val "pa") }
      else none  -- missing columns: warning printed, return None
    else none  -- empty frame: returns None (print may raise NameError first)
  else none  -- non-success status code: return None

/-- The pitch-code display names used by `get_combined_split_data`. -/
def pitch_type_names : List (String × String) :=
  [("FF", "Fastball (4-seam)"), ("SI", "Sinker (2-Seam)"), ("FC", "Cutter"),
   ("CH", "Changeup"), ("FS", "Split-finger"), ("FO", "Forkball"), ("SC", "Screwball"),
   ("CU", "Curveball"), ("KC", "Knuckle Curve"), ("CS", "Slow Curve"), ("SL", "Slider"),
   ("ST", "Sweeper"), ("SV", "Slurve"), ("KN", "Knuckleball"), ("EP", "Eephus"),
   ("FA", "Other"), ("IN", "Intentional Ball"), ("PO", "Pitchout")]

/-- First-match association-list lookup (Python dict lookup / `dict.get`). -/
def assocFind {β : Type} : List (String × β) → String → Option β
  | [], _ => none
  | kv :: rest, k => if kv.1 = k then some kv.2 else assocFind rest k

/-- The human-readable split description built at the top of
`get_combined_split_data` (home/road, then handedness, then pitch descriptor). -/
def split_name_of (params : FetchParams) : String :=
  let d1 := match params.home_road with
    | some v => [v]
    | none => []
  let d2 := match params.pitcher_throws with
    | some v => ["vs " ++ v ++ "HP"]
    | none => []
  let d3 := match params.pitch_type with
    | some v => ["on " ++ ((assocFind pitch_type_names v).getD v)]
    | none => []
  String.intercalate " " (d1 ++ d2 ++ d3)

/-- The stats dict built by `get_combined_split_data`: every field is read
defensively with a per-field default. -/
structure SplitRecord where
  split_name : String
  params : FetchParams
  avg : RateVal
  slg : RateVal
  obp : RateVal
  ops : RateVal
  homeRuns : ℤ
  hits : ℤ
  atBats : ℤ
  plateAppearances : ℤ
  strikeOuts : ℤ
  baseOnBalls : ℤ
deriving DecidableEq

/-- `get_combined_split_data` (stats.py lines 105-220), applied to the response
the remote returns for `params`. -/
def get_combined_split_data (params : FetchParams) (response : Response) :
    Option SplitRecord :=
  if response.status = 200 then
    if response.csv.isEmpty = false then
      -- Check if we have meaningful data (some at-bats)
      if "abs" ∈ response.csv.cols ∧ 0 < response.csv.val "abs" then
        some {
          split_name := split_name_of params
          params := params
          avg := if "ba" ∈ response.csv.cols then .num (response.csv.val "ba") else .na
          slg := if "slg" ∈ response.csv.cols then .num (response.csv.val "slg") else .na
          obp := if "obp" ∈ response.csv.cols then .num (response.csv.val "obp") else .na
          ops := if "obp" ∈ response.csv.cols ∧ "slg" ∈ response.csv.cols then
              .num (response.csv.val "obp" + response.csv.val "slg") else .na
          homeRuns := if "hrs" ∈ response.csv.cols then pyInt (response.csv.val "hrs") else 0
          hits := if "hits" ∈ response.csv.cols then pyInt (response.csv.val "hits") else 0
          atBats := if "abs" ∈ response.csv.cols then pyInt (response.csv.val "abs") else 0
          plateAppearances :=
            if "pa" ∈ response.csv.cols then pyInt (response.csv.val "pa") else 0
          strikeOuts := if "so" ∈ response.csv.cols then pyInt (response.csv.val "so") else 0
          baseOnBalls := if "bb" ∈ response.csv.cols then pyInt (response.csv.val "bb") else 0 }
      else none  -- no meaningful at-bats
    else none  -- empty frame
  else none  -- non-success status code

/-- Issue the fetch for `params` against environment `env` and parse it. -/
def fetchSplit (env : Env) (params : FetchParams) : Option SplitRecord :=
  get_combined_split_data params (env params)

/-- A key of `detailed_splits["splits"]`, structurally.  The source serializes
these as the strings `f"pitch_{p}"`, `f"pitch_{p}_hand_{h}"`,
`f"pitch_{p}_hand_{h}_loc_{l}"` and `f"group_{g}_hand_{h}"`; the `group` keys are
exactly the strings starting with "group_". -/
inductive SplitKey where
  | pitch (p : String) : SplitKey
  | pitchHand (p h : String) : SplitKey
  | pitchHandLoc (p h l : String) : SplitKey
  | group (g h : String) : SplitKey
deriving DecidableEq

/-- Whether the serialized key starts with "group_". -/
def SplitKey.isGroup : SplitKey → Bool
  | .group _ _ => true
  | _ => false

/-- The pitch-type code a pitch-tier key refers to (none for group keys). -/
def SplitKey.pitchOf : SplitKey → Option String
  | .pitch p => some p
  | .pitchHand p _ => some p
  | .pitchHandLoc p _ _ => some p
  | .group _ _ => none

/-- The group-rollup dict built in `get_detailed_pitch_splits` (only these four
stat fields plus the name are stored for a group). -/
structure GroupRecord where
  split_name : String
  avg : RateVal
  ops : RateVal
  atBats : ℤ
  homeRuns : ℤ
deriving DecidableEq

/-- A value of `detailed_splits["splits"]`: either a fetched per-dimension record
or a derived group rollup. -/
inductive RepRecord where
  | fetched (r : SplitRecord) : RepRecord
  | rollup (g : GroupRecord) : RepRecord
deriving DecidableEq

/-- `d["avg"]` / `d.get("avg", "N/A")`: present in both record shapes. -/
def RepRecord.avg : RepRecord → RateVal
  | .fetched r => r.avg
  | .rollup g => g.avg

/-- `d["ops"]` / `d.get("ops", "N/A")`: present in both record shapes. -/
def RepRecord.ops : RepRecord → RateVal
  | .fetched r => r.ops
  | .rollup g => g.ops

/-- `d["atBats"]` / `d.get("atBats", 0)`: present in both record shapes. -/
def RepRecord.atBats : RepRecord → ℤ
  | .fetched r => r.atBats
  | .rollup g => g.atBats

/-- `d["homeRuns"]` / `d.get("homeRuns", 0)`: present in both record shapes. -/
def RepRecord.homeRuns : RepRecord → ℤ
  | .fetched r => r.homeRuns
  | .rollup g => g.homeRuns

/-- `d.get("split_name", key)`: present in both record shapes. -/
def RepRecord.split_name : RepRecord → String
  | .fetched r => r.split_name
  | .rollup g => g.split_name

/-- The `detailed_splits["splits"]` dict, in insertion order. -/
abbrev Report : Type := List (SplitKey × RepRecord)

/-- Dict lookup: value stored under `k` (keys are unique, so first match). -/
def findSplit : Report → SplitKey → Option RepRecord
  | [], _ => none
  | kd :: rest, k => if kd.1 = k then some kd.2 else findSplit rest k

/-- The `pitch_types` list iterated by `get_detailed_pitch_splits`. -/
def detailed_pitch_types : List String :=
  ["FF", "SI", "FC", "CH", "FS", "FO", "SC", "CU", "KC", "CS", "SL", "ST", "SV", "KN", "EP"]

/-- `pitcher_hands = ["L", "R"]`. -/
def pitcher_hands : List String := ["L", "R"]

/-- `locations = ["Home", "Road"]`. -/
def locations : List String := ["Home", "Road"]

/-- The `pitch_groups` dict of `get_detailed_pitch_splits`. -/
def detailed_pitch_groups : List (String × List String) :=
  [("Fastball", ["FF", "SI", "FC"]),
   ("Breaking", ["CU", "KC", "CS", "SL", "ST", "SV", "KN"]),
   ("Offspeed", ["CH", "FS", "FO", "SC"])]

/-- Innermost loop of `get_detailed_pitch_splits` (lines 339-347): for each
location, fetch pitch+hand+location; store only when a record came back with
`atBats >= 5`. -/
def perLoc (env : Env) (p h : String) : Report :=
  locations.flatMap (fun l =>
    match fetchSplit env ⟨some p, some h, some l⟩ with
    | some d => if 5 ≤ d.atBats then [(.pitchHandLoc p h l, .fetched d)] else []
    | none => [])

/-- Middle loop (lines 332-347): for each handedness, fetch pitch+hand; when it
clears the threshold, store it and expand into the location loop. -/
def perHand (env : Env) (p : String) : Report :=
  pitcher_hands.flatMap (fun h =>
    match fetchSplit env ⟨some p, some h, none⟩ with
    | some d =>
      if 5 ≤ d.atBats then (.pitchHand p h, .fetched d) :: perLoc env p h else []
    | none => [])

/-- Outer loop body (lines 324-347): fetch the pitch type overall; when it clears
the threshold, store it and expand into the handedness loop. -/
def perPitch (env : Env) (p : String) : Report :=
  match fetchSplit env ⟨some p, none, none⟩ with
  | some d => if 5 ≤ d.atBats then (.pitch p, .fetched d) :: perHand env p else []
  | none => []

/-- All entries inserted by the pitch-tier phase, in insertion order. -/
def pitchPhase (env : Env) : Report :=
  detailed_pitch_types.flatMap (fun p => perPitch env p)

/-- The group-rollup dict built at lines 376-383: mean of the non-"N/A" averages
and OPS values (divided by the total constituent count), summed AB and HR,
average rounded to three decimals. -/
def groupRollup (group_name hand : String) (hand_data : List RepRecord) : GroupRecord :=
  let avg_sum : ℚ := ((hand_data.filter (fun d => d.avg ≠ .na)).map
    (fun d => d.avg.toRat)).sum
  let ops_sum : ℚ := ((hand_data.filter (fun d => d.ops ≠ .na)).map
    (fun d => d.ops.toRat)).sum
  let ab_sum : ℤ := (hand_data.map (fun d => d.atBats)).sum
  let hr_sum : ℤ := (hand_data.map (fun d => d.homeRuns)).sum
  { split_name := group_name ++ " pitches vs " ++ hand ++ "HP"
    avg := .num (round3 (avg_sum / (hand_data.length : ℚ)))
    ops := .num (round3 (ops_sum / (hand_data.length : ℚ)))
    atBats := ab_sum
    homeRuns := hr_sum }

/-- The constituents of one group rollup (lines 359-364): the already-stored
records under the `pitch_{p}_hand_{h}` keys of the group's pitch codes.  The
group phase never inserts a `pitchHand` key, so looking the keys up in the
pitch-phase result equals looking them up in the evolving dict. -/
def groupConstituents (base : Report) (group_pitches : List String) (h : String) :
    List RepRecord :=
  group_pitches.filterMap (fun p => findSplit base (.pitchHand p h))

/-- The group-phase entries (lines 357-383), in insertion order: for each group
and handedness, collect constituents; when at least one exists and the summed
at-bats are positive, store the rollup. -/
def groupEntries (base : Report) : Report :=
  detailed_pitch_groups.flatMap (fun gp =>
    pitcher_hands.flatMap (fun h =>
      if groupConstituents base gp.2 h ≠ [] then
        if 0 < (groupConstituents base gp.2 h).length ∧
            0 < ((groupConstituents base gp.2 h).map (fun d => d.atBats)).sum then
          [(.group gp.1 h, .rollup (groupRollup gp.1 h (groupConstituents base gp.2 h)))]
        else []
      else []))

/-- The `detailed_splits` dict returned by `get_detailed_pitch_splits`. -/
structure DetailedSplitsReport where
  player_id : ℤ
  season : ℤ
  splits : Report

/-- `get_detailed_pitch_splits` (stats.py lines 290-385), driven by the remote
environment `env`. -/
def get_detailed_pitch_splits (env : Env) (player_id season : ℤ) :
    DetailedSplitsReport :=
  let base := pitchPhase env
  { player_id := player_id, season := season, splits := base ++ groupEntries base }

/-- The location-tier fetches issued for pitch `p` and handedness `h`. -/
def callsLoc (p h : String) : List FetchParams :=
  locations.map (fun l => ⟨some p, some h, some l⟩)

/-- The fetches issued by the handedness loop for pitch `p`: every handedness is
fetched, and the location tier is issued only when the handedness record clears
the `atBats >= 5` threshold. -/
def callsHand (env : Env) (p : String) : List FetchParams :=
  pitcher_hands.flatMap (fun h =>
    ⟨some p, some h, none⟩ ::
      (match fetchSplit env ⟨some p, some h, none⟩ with
      | some d => if 5 ≤ d.atBats then callsLoc p h else []
      | none => []))

/-- The fetches issued for pitch `p`: the overall fetch always, the handedness
tier only when the overall record clears the `atBats >= 5` threshold. -/
def callsPitch (env : Env) (p : String) : List FetchParams :=
  ⟨some p, none, none⟩ ::
    (match fetchSplit env ⟨some p, none, none⟩ with
    | some d => if 5 ≤ d.atBats then callsHand env p else []
    | none => [])

/-- Every remote call `get_detailed_pitch_splits` issues, in order. -/
def detailedCalls (env : Env) : List FetchParams :=
  detailed_pitch_types.flatMap (fun p => callsPitch env p)

/-- One entry of the `notable_splits` list built inside
`generate_performance_summary` (lines 485-491). -/
structure NotableEntry where
  name : String
  avg : RateVal
  ops : RateVal
  hr : ℤ
  ab : ℤ
deriving DecidableEq

/-- The projection appended for a qualifying split (lines 485-491). -/
def toNotable (d : RepRecord) : NotableEntry :=
  { name := d.split_name, avg := d.avg, ops := d.ops, hr := d.homeRuns, ab := d.atBats }

/-- The candidate pool (lines 481-491): iterate the splits dict in insertion
order; keep entries with `atBats >= 10` and a numeric average whose key does not
start with "group_". -/
def notablePool (splits : Report) : List NotableEntry :=
  splits.filterMap (fun kd =>
    if 10 ≤ kd.2.atBats ∧ kd.2.avg ≠ .na then
      if kd.1.isGroup = false then some (toNotable kd.2) else none
    else none)

/-- The sort key (line 494): `float(x["avg"]) if x["avg"] != "N/A" else 0`. -/
def notableKey (e : NotableEntry) : ℚ :=
  match e.avg with
  | .na => 0
  | .num q => q

/-- Descending comparison used by the stable sort (`reverse=True`). -/
def notableLe (a b : NotableEntry) : Bool := notableKey b ≤ notableKey a

/-- The notable-splits portion of `generate_performance_summary` (lines 474-497):
filter, stable-sort by parsed average descending, take the first five. -/
def generate_performance_summary_notable (splits : Report) : List NotableEntry :=
  ((notablePool splits).mergeSort notableLe).take 5

/-- One element of the list `statsapi.lookup_player` returns. -/
structure PlayerInfo where
  id : ℤ
  fullName : String
deriving DecidableEq

/-- `get_player_id` (stats.py lines 9-27), applied to the directory lookup's
result list: empty result gives `None`; otherwise the id of the first candidate
(`player_search[0]["id"]`). -/
def get_player_id (player_search : List PlayerInfo) : Option ℤ :=
  match player_search with
  | [] => none
  | p :: _ => some p.id

/-- The `basic_splits` dict persisted per season (keys "overall", "vs RHP",
"vs LHP", "Home", "Away"). -/
abbrev BasicSplits : Type := List (String × SavantRecord)

/-- A per-player career JSON document (`<player>_career.json`). -/
structure CareerData where
  player : Option (String × ℤ)
  seasons : List (String × BasicSplits)
  lastUpdated : Option String
deriving DecidableEq

/-- Python dict assignment `d[k] = v`: replace in place when the key exists
(keeping its position), append otherwise; dict keys are unique, so replacing
the first occurrence is replacement of the only occurrence. -/
def setEntry {β : Type} : List (String × β) → String → β → List (String × β)
  | [], k, v => [(k, v)]
  | kv :: rest, k, v => if kv.1 = k then (k, v) :: rest else kv :: setEntry rest k v

/-- The career-file merge of `update_career_files` (stats.py lines 744-777):
load (or default) the career document, initialize the player stanza when absent,
assign this season's entry wholesale, and stamp `lastUpdated`.  `existing` is
the parsed prior file content (`none` when the file does not exist or fails to
load, which the source treats as the empty dict). -/
def update_career_files (existing : Option CareerData) (player_name : String)
    (player_id : ℤ) (season : String) (basic_splits : BasicSplits) (now : String) :
    CareerData :=
  let c := existing.getD { player := none, seasons := [], lastUpdated := none }
  let c := if c.player = none then
    { c with player := some (player_name, player_id) } else c
  let c := { c with seasons := setEntry c.seasons season basic_splits }
  { c with lastUpdated := some now }

/-- A successful CSV response whose row has `abs = ab` and `ba = ba0`
(all required columns present; `slg = 0.4`, `obp = 0.3`, counting stats 1). -/
def okResponse (ab ba0 : ℚ) : Response :=
  { status := 200
    csv :=
      { isEmpty := false
        cols := ["ba", "slg", "obp", "hrs", "hits", "singles", "doubles", "triples",
                 "so", "bb", "abs", "pa"]
        val := fun c =>
          if c = "abs" then ab
          else if c = "ba" then ba0
          else if c = "slg" then 4 / 10
          else if c = "obp" then 3 / 10
          else if c = "pa" then ab
          else 1 } }

/-- An HTTP 404 response with no body. -/
def notFoundResponse : Response :=
  { status := 404, csv := { isEmpty := true, cols := [], val := fun _ => 0 } }

/-- An environment in which only curveball queries succeed (5 at-bats, .250
average) and every other query is a 404. -/
def envOnlyCU : Env := fun pr =>
  if pr.pitch_type = some "CU" then okResponse 5 (25 / 100) else notFoundResponse

/-- An environment in which four-seam-fastball queries 404 and everything else
succeeds with 20 at-bats. -/
def envNoFF : Env := fun pr =>
  if pr.pitch_type = some "FF" then notFoundResponse else okResponse 20 (3 / 10)

/-- A successful response missing the required `ba` column but carrying 20
at-bats (used against `get_baseball_savant_data`). -/
def responseMissingBa : Response :=
  { status := 200
    csv :=
      { isEmpty := false
        cols := ["slg", "obp", "hrs", "hits", "singles", "doubles", "triples",
                 "so", "bb", "abs", "pa"]
        val := fun c => if c = "abs" then 20 else 1 } }

/-- A constituent per-pitch-and-handedness record with the given average, OPS,
at-bats and home runs (other fields inert), as stored under a `pitchHand` key. -/
def mkConstituent (a : RateVal) (o : RateVal) (ab hr : ℤ) : RepRecord :=
  .fetched
    { split_name := "vs LHP on Curveball"
      params := ⟨some "CU", some "L", none⟩
      avg := a
      slg := .na
      obp := .na
      ops := o
      homeRuns := hr
      hits := 0
      atBats := ab
      plateAppearances := ab
      strikeOuts := 0
      baseOnBalls := 0 }

/-- The spec's worked example: Breaking-ball constituents vs LHP with averages
.250 and .300 and at-bats 20 and 30. -/
def breakingExample : List RepRecord :=
  [mkConstituent (.num (25 / 100)) (.num (6 / 10)) 20 2,
   mkConstituent (.num (3 / 10)) (.num (7 / 10)) 30 3]

/-- Three numeric constituents whose mean average is not representable in three
decimal places: .250, .250, .300 (mean 4/15). -/
def breakingThirds : List RepRecord :=
  [mkConstituent (.num (25 / 100)) (.num (6 / 10)) 20 2,
   mkConstituent (.num (25 / 100)) (.num (6 / 10)) 20 2,
   mkConstituent (.num (3 / 10)) (.num (7 / 10)) 30 3]

/-- Two numeric .100 averages plus one "N/A" constituent (sum .200, total 3). -/
def naThirds : List RepRecord :=
  [mkConstituent (.num (1 / 10)) (.num (2 / 10)) 20 0,
   mkConstituent (.num (1 / 10)) (.num (2 / 10)) 20 0,
   mkConstituent .na .na 20 0]

/-- A zero numeric average next to an "N/A" one. -/
def naZero : List RepRecord :=
  [mkConstituent (.num 0) (.num 0) 20 0, mkConstituent .na .na 20 0]

/-- The sum of the parsed non-"N/A" averages of a constituent list (the
numerator of the rollup's average). -/
def numericAvgSum (l : List RepRecord) : ℚ :=
  ((l.filter (fun d => d.avg ≠ RateVal.na)).map (fun d => d.avg.toRat)).sum

/-- The number of constituents with a numeric average. -/
def numericAvgCount (l : List RepRecord) : ℕ :=
  (l.filter (fun d => d.avg ≠ RateVal.na)).length

/-- The record stored under `pitch_CU` in the only-curveball environment. -/
def cuPitchRecord : RepRecord :=
  (findSplit (get_detailed_pitch_splits envOnlyCU 0 2024).splits (.pitch "CU")).getD
    (.rollup (groupRollup "" "" []))

/-- The record stored under `pitch_CU_hand_L` in the only-curveball environment. -/
def cuHandRecord : RepRecord :=
  (findSplit (get_detailed_pitch_splits envOnlyCU 0 2024).splits
    (.pitchHand "CU" "L")).getD (.rollup (groupRollup "" "" []))

/-- A key is present in a report when some record is stored under it. -/
def keyPresent (r : Report) (k : SplitKey) : Prop := ∃ d, (k, d) ∈ r

/-- A small detailed-splits report: one qualifying fastball record and one group
rollup (used to instantiate summarizer theorems). -/
def sampleReport : Report :=
  [(.pitch "FF", mkConstituent (.num (28 / 100)) (.num (8 / 10)) 12 1),
   (.group "Fastball" "L", .rollup (groupRollup "Fastball" "L"
      [mkConstituent (.num (28 / 100)) (.num (8 / 10)) 12 1]))]

/-- An inert split record used as a `getD` default in concrete witnesses. -/
def junkSplitRecord : SplitRecord :=
  { split_name := "", params := ⟨none, none, none⟩, avg := .na, slg := .na,
    obp := .na, ops := .na, homeRuns := 0, hits := 0, atBats := 0,
    plateAppearances := 0, strikeOuts := 0, baseOnBalls := 0 }

/-- The record parsed by `get_baseball_savant_data` from a full 20-at-bat row. -/
def savantFromOk : SavantRecord :=
  (get_baseball_savant_data "pitcher_throws" "R" (okResponse 20 (3 / 10))).getD
    ⟨0, 0, 0, 0, 0, 0, 0, 0, 0, 0, 0, 0⟩

/-- The record parsed by `get_combined_split_data` from a full 20-at-bat row. -/
def combinedFromOk : SplitRecord :=
  (get_combined_split_data ⟨some "FF", none, none⟩ (okResponse 20 (3 / 10))).getD
    junkSplitRecord

/-- A successful response carrying only the `abs` column (20 at-bats). -/
def responseSparse : Response :=
  { status := 200
    csv := { isEmpty := false, cols := ["abs"],
             val := fun c => if c = "abs" then 20 else 0 } }

/-- The record `get_combined_split_data` builds from the sparse response. -/
def sparseRecord : SplitRecord :=
  (get_combined_split_data ⟨some "FF", none, none⟩ responseSparse).getD
    junkSplitRecord

/-- The empty JSON document (`career_data = {}` before initialization). -/
def emptyCareer : CareerData := { player := none, seasons := [], lastUpdated := none }

/-- Whether the query `pr2` lies in the expansion subtree rooted at the
dimension `pr`: for a pitch-overall dimension, every query of that pitch type;
for a pitch-and-handedness dimension, every query of that pitch type and
handedness; otherwise only the dimension itself. -/
def inSubtree (pr pr2 : FetchParams) : Bool :=
  match pr with
  | ⟨some P, none, none⟩ => decide (pr2.pitch_type = some P)
  | ⟨some P, some H, none⟩ =>
      decide (pr2.pitch_type = some P) && decide (pr2.pitcher_throws = some H)
  | _ => decide (pr2 = pr)

/-- The report keys belonging to the dimension `pr` in `get_detailed_pitch_splits`
(the key the dimension would be stored under, together with the keys of its
gated sub-dimensions). -/
def keyInSubtree (pr : FetchParams) (k : SplitKey) : Prop :=
  match pr with
  | ⟨some P, none, none⟩ => k.pitchOf = some P
  | ⟨some P, some H, none⟩ => k = .pitchHand P H ∨ ∃ L, k = .pitchHandLoc P H L
  | ⟨some P, some H, some L⟩ => k = .pitchHandLoc P H L
  | _ => False

/-- The environment that answers every query in the subtree of dimension `pr`
with a 404 and leaves every other query unchanged. -/
def maskSubtree (env : Env) (pr : FetchParams) : Env := fun pr2 =>
  if inSubtree pr pr2 then notFoundResponse else env pr2

/-- The remote CSV service as seen by `get_baseball_savant_data`: a response per
(parameter_name, parameter_value) pair. -/
def SavantEnv : Type := String → String → Response

/-- The basic-split fetches of `get_complete_player_data` (stats.py lines
836-853) in issue order: (parameter_name, parameter_value, stored key). -/
def savant_basic_queries : List (String × String × String) :=
  [("overall", "total", "overall"),
   ("pitcher_throws", "R", "vs RHP"), ("pitcher_throws", "L", "vs LHP"),
   ("home_road", "Home", "Home"), ("home_road", "Road", "Away")]

/-- The `basic_splits` dict built by `get_complete_player_data` (lines 836-853):
each split is fetched via `get_baseball_savant_data` and stored under its key
only when a record came back. -/
def get_complete_player_basic_splits (senv : SavantEnv) : BasicSplits :=
  savant_basic_queries.flatMap (fun t =>
    match get_baseball_savant_data t.1 t.2.1 (senv t.1 t.2.1) with
    | some s => [(t.2.2, s)]
    | none => [])

/-- The savant environment that answers the one query `(pn, pv)` with a 404 and
leaves every other query unchanged. -/
def maskSavant (senv : SavantEnv) (pn pv : String) : SavantEnv := fun n v =>
  if n = pn ∧ v = pv then notFoundResponse else senv n v

/-- A savant environment in which only the vs-LHP split query fails (404). -/
def savantEnv404 : SavantEnv := fun n v =>
  if n = "pitcher_throws" ∧ v = "L" then notFoundResponse else okResponse 20 (3 / 10)

/-! ### Basic lemmas about the embedding's list machinery -/

theorem assocFind_mem {β : Type} {l : List (String × β)} {k : String} {v : β}
    (h : assocFind l k = some v) : (k, v) ∈ l := by
  induction l with
  | nil => simp [assocFind] at h
  | cons kv rest ih =>
    by_cases hk : kv.1 = k
    · simp only [assocFind, if_pos hk] at h
      injection h with h2
      subst h2
      rw [← hk]
      exact List.mem_cons_self _ _
    · simp only [assocFind, if_neg hk] at h
      exact List.mem_cons_of_mem _ (ih h)

theorem findSplit_mem {r : Report} {k : SplitKey} {v : RepRecord}
    (h : findSplit r k = some v) : (k, v) ∈ r := by
  induction r with
  | nil => simp [findSplit] at h
  | cons kd rest ih =>
    by_cases hk : kd.1 = k
    · simp only [findSplit, if_pos hk] at h
      injection h with h2
      subst h2
      rw [← hk]
      exact List.mem_cons_self _ _
    · simp only [findSplit, if_neg hk] at h
      exact List.mem_cons_of_mem _ (ih h)

theorem isSome_eq_some_getD {α : Type} (o : Option α) (a : α)
    (h : o.isSome = true) : o = some (o.getD a) := by
  cases o with
  | none => simp at h
  | some b => rfl

theorem flatMapCongr {α β : Type} {l : List α} {f g : α → List β}
    (h : ∀ a ∈ l, f a = g a) : l.flatMap f = l.flatMap g := by
  induction l with
  | nil => rfl
  | cons x xs ih =>
    simp only [List.flatMap_cons]
    rw [h x (List.mem_cons_self x xs), ih (fun a ha => h a (List.mem_cons_of_mem x ha))]

theorem sum_ge_of_all_ge {l : List ℤ} (h5 : ∀ x ∈ l, 5 ≤ x) (hne : l ≠ []) :
    5 ≤ l.sum := by
  cases l with
  | nil => exact absurd rfl hne
  | cons x xs =>
    simp only [List.sum_cons]
    have hx : 5 ≤ x := h5 x (List.mem_cons_self x xs)
    have hxs : 0 ≤ xs.sum := by
      apply List.sum_nonneg
      intro y hy
      have := h5 y (List.mem_cons_of_mem x hy)
      omega
    omega

theorem length_filter_lt_of_exists {α : Type} {l : List α} {p : α → Bool}
    (h : ∃ x ∈ l, p x = false) : (l.filter p).length < l.length := by
  induction l with
  | nil => simp at h
  | cons x xs ih =>
    obtain ⟨y, hy, hpy⟩ := h
    have hlen : (xs.filter p).length ≤ xs.length := List.length_filter_le _ _
    rcases List.mem_cons.1 hy with hyx | hyxs
    · subst hyx
      simp [List.filter_cons, hpy]
      omega
    · by_cases hpx : p x = true
      · have := ih ⟨y, hyxs, hpy⟩
        simp [List.filter_cons, hpx]
        omega
      · simp [List.filter_cons, hpx]
        omega

/-! ### Membership lemmas for the aggregator's traversal -/

theorem mem_perLoc {env : Env} {p h : String} {k : SplitKey} {d : RepRecord}
    (hm : (k, d) ∈ perLoc env p h) :
    ∃ l ∈ locations, ∃ r, fetchSplit env ⟨some p, some h, some l⟩ = some r ∧
      5 ≤ r.atBats ∧ k = .pitchHandLoc p h l ∧ d = .fetched r := by
  simp only [perLoc, List.mem_flatMap] at hm
  obtain ⟨l, hl, hmem⟩ := hm
  refine ⟨l, hl, ?_⟩
  cases hf : fetchSplit env ⟨some p, some h, some l⟩ with
  | none => rw [hf] at hmem; simp at hmem
  | some r =>
    rw [hf] at hmem
    have hmem2 : (k, d) ∈
        (if 5 ≤ r.atBats then [((SplitKey.pitchHandLoc p h l : SplitKey),
          RepRecord.fetched r)] else []) := hmem
    by_cases h5 : 5 ≤ r.atBats
    · rw [if_pos h5] at hmem2
      simp only [List.mem_singleton, Prod.mk.injEq] at hmem2
      exact ⟨r, rfl, h5, hmem2.1, hmem2.2⟩
    · rw [if_neg h5] at hmem2
      simp at hmem2

theorem mem_perHand {env : Env} {p : String} {k : SplitKey} {d : RepRecord}
    (hm : (k, d) ∈ perHand env p) :
    ∃ h ∈ pitcher_hands, ∃ r, fetchSplit env ⟨some p, some h, none⟩ = some r ∧
      5 ≤ r.atBats ∧
      ((k = .pitchHand p h ∧ d = .fetched r) ∨ (k, d) ∈ perLoc env p h) := by
  simp only [perHand, List.mem_flatMap] at hm
  obtain ⟨h, hh, hmem⟩ := hm
  refine ⟨h, hh, ?_⟩
  cases hf : fetchSplit env ⟨some p, some h, none⟩ with
  | none => rw [hf] at hmem; simp at hmem
  | some r =>
    rw [hf] at hmem
    have hmem2 : (k, d) ∈
        (if 5 ≤ r.atBats then ((SplitKey.pitchHand p h : SplitKey),
          RepRecord.fetched r) :: perLoc env p h else []) := hmem
    by_cases h5 : 5 ≤ r.atBats
    · rw [if_pos h5] at hmem2
      rcases List.mem_cons.1 hmem2 with hhead | htail
      · exact ⟨r, rfl, h5, Or.inl ⟨congrArg Prod.fst hhead, congrArg Prod.snd hhead⟩⟩
      · exact ⟨r, rfl, h5, Or.inr htail⟩
    · rw [if_neg h5] at hmem2
      simp at hmem2

theorem mem_perPitch {env : Env} {p : String} {k : SplitKey} {d : RepRecord}
    (hm : (k, d) ∈ perPitch env p) :
    ∃ r, fetchSplit env ⟨some p, none, none⟩ = some r ∧ 5 ≤ r.atBats ∧
      ((k = .pitch p ∧ d = .fetched r) ∨ (k, d) ∈ perHand env p) := by
  simp only [perPitch] at hm
  cases hf : fetchSplit env ⟨some p, none, none⟩ with
  | none => rw [hf] at hm; simp at hm
  | some r =>
    rw [hf] at hm
    have hm2 : (k, d) ∈
        (if 5 ≤ r.atBats then ((SplitKey.pitch p : SplitKey),
          RepRecord.fetched r) :: perHand env p else []) := hm
    by_cases h5 : 5 ≤ r.atBats
    · rw [if_pos h5] at hm2
      rcases List.mem_cons.1 hm2 with hhead | htail
      · exact ⟨r, rfl, h5, Or.inl ⟨congrArg Prod.fst hhead, congrArg Prod.snd hhead⟩⟩
      · exact ⟨r, rfl, h5, Or.inr htail⟩
    · rw [if_neg h5] at hm2
      simp at hm2

theorem mem_perLoc_pitchOf {env : Env} {p h : String} {k : SplitKey} {d : RepRecord}
    (hm : (k, d) ∈ perLoc env p h) : k.pitchOf = some p := by
  obtain ⟨l, _, r, _, _, hk, _⟩ := mem_perLoc hm
  subst hk
  rfl

theorem mem_perHand_pitchOf {env : Env} {p : String} {k : SplitKey} {d : RepRecord}
    (hm : (k, d) ∈ perHand env p) : k.pitchOf = some p := by
  obtain ⟨h, _, r, _, _, hcase⟩ := mem_perHand hm
  rcases hcase with ⟨hk, _⟩ | hloc
  · subst hk
    rfl
  · exact mem_perLoc_pitchOf hloc

theorem mem_perPitch_pitchOf {env : Env} {p : String} {k : SplitKey} {d : RepRecord}
    (hm : (k, d) ∈ perPitch env p) : k.pitchOf = some p := by
  obtain ⟨r, _, _, hcase⟩ := mem_perPitch hm
  rcases hcase with ⟨hk, _⟩ | hhand
  · subst hk
    rfl
  · exact mem_perHand_pitchOf hhand

theorem mem_perPitch_atBats {env : Env} {p : String} {k : SplitKey} {d : RepRecord}
    (hm : (k, d) ∈ perPitch env p) : 5 ≤ d.atBats := by
  obtain ⟨r, _, h5, hcase⟩ := mem_perPitch hm
  rcases hcase with ⟨_, hd⟩ | hhand
  · subst hd
    exact h5
  · obtain ⟨h, _, rh, _, h5h, hcase2⟩ := mem_perHand hhand
    rcases hcase2 with ⟨_, hd⟩ | hloc
    · subst hd
      exact h5h
    · obtain ⟨l, _, rl, _, h5l, _, hd⟩ := mem_perLoc hloc
      subst hd
      exact h5l

theorem perHand_intro {env : Env} {p h : String} {r : SplitRecord}
    (hh : h ∈ pitcher_hands) (hf : fetchSplit env ⟨some p, some h, none⟩ = some r)
    (h5 : 5 ≤ r.atBats) :
    ((SplitKey.pitchHand p h : SplitKey), RepRecord.fetched r) ∈ perHand env p := by
  simp only [perHand, List.mem_flatMap]
  refine ⟨h, hh, ?_⟩
  rw [hf]
  show _ ∈ (if 5 ≤ r.atBats then ((SplitKey.pitchHand p h : SplitKey),
    RepRecord.fetched r) :: perLoc env p h else [])
  rw [if_pos h5]
  exact List.mem_cons_self _ _

theorem perPitch_intro_hand {env : Env} {p : String} {k : SplitKey} {d : RepRecord}
    {r : SplitRecord} (hf : fetchSplit env ⟨some p, none, none⟩ = some r)
    (h5 : 5 ≤ r.atBats) (hm : (k, d) ∈ perHand env p) : (k, d) ∈ perPitch env p := by
  simp only [perPitch]
  rw [hf]
  show (k, d) ∈ (if 5 ≤ r.atBats then ((SplitKey.pitch p : SplitKey),
    RepRecord.fetched r) :: perHand env p else [])
  rw [if_pos h5]
  exact List.mem_cons_of_mem _ hm

theorem perPitch_intro_pitch {env : Env} {p : String} {r : SplitRecord}
    (hf : fetchSplit env ⟨some p, none, none⟩ = some r) (h5 : 5 ≤ r.atBats) :
    ((SplitKey.pitch p : SplitKey), RepRecord.fetched r) ∈ perPitch env p := by
  simp only [perPitch]
  rw [hf]
  show _ ∈ (if 5 ≤ r.atBats then ((SplitKey.pitch p : SplitKey),
    RepRecord.fetched r) :: perHand env p else [])
  rw [if_pos h5]
  exact List.mem_cons_self _ _

theorem mem_pitchPhase {env : Env} {k : SplitKey} {d : RepRecord} :
    (k, d) ∈ pitchPhase env ↔ ∃ p ∈ detailed_pitch_types, (k, d) ∈ perPitch env p := by
  simp [pitchPhase, List.mem_flatMap]

theorem perPitch_nil {env : Env} {p : String}
    (hf : fetchSplit env ⟨some p, none, none⟩ = none) : perPitch env p = [] := by
  simp only [perPitch]
  rw [hf]

theorem mem_groupEntries {base : Report} {k : SplitKey} {d : RepRecord}
    (hm : (k, d) ∈ groupEntries base) :
    ∃ gp ∈ detailed_pitch_groups, ∃ h ∈ pitcher_hands,
      groupConstituents base gp.2 h ≠ [] ∧
      0 < ((groupConstituents base gp.2 h).map (fun c => c.atBats)).sum ∧
      k = .group gp.1 h ∧
      d = .rollup (groupRollup gp.1 h (groupConstituents base gp.2 h)) := by
  simp only [groupEntries, List.mem_flatMap] at hm
  obtain ⟨gp, hgp, hm2⟩ := hm
  obtain ⟨h, hh, hm3⟩ := hm2
  refine ⟨gp, hgp, h, hh, ?_⟩
  by_cases hne : groupConstituents base gp.2 h ≠ []
  · rw [if_pos hne] at hm3
    by_cases hsum : 0 < (groupConstituents base gp.2 h).length ∧
        0 < ((groupConstituents base gp.2 h).map (fun c => c.atBats)).sum
    · rw [if_pos hsum] at hm3
      simp only [List.mem_singleton, Prod.mk.injEq] at hm3
      exact ⟨hne, hsum.2, hm3.1, hm3.2⟩
    · rw [if_neg hsum] at hm3
      simp at hm3
  · rw [if_neg hne] at hm3
    simp at hm3

theorem groupConstituents_atBats {env : Env} {ps : List String} {h : String}
    {c : RepRecord} (hc : c ∈ groupConstituents (pitchPhase env) ps h) :
    5 ≤ c.atBats := by
  simp only [groupConstituents, List.mem_filterMap] at hc
  obtain ⟨p, _, hfind⟩ := hc
  obtain ⟨q, _, hq⟩ := mem_pitchPhase.1 (findSplit_mem hfind)
  exact mem_perPitch_atBats hq

theorem groupRollup_atBats (g h : String) (l : List RepRecord) :
    (groupRollup g h l).atBats = (l.map (fun d => d.atBats)).sum := rfl

/-- C2 (amended): every record stored in the report built by
`get_detailed_pitch_splits` has `atBats >= 5`: pitch-tier records because every
storage site checks the 5 threshold, and group rollups because each constituent
is a stored pitch-and-handedness record with `atBats >= 5` and at least one
constituent exists.  Group rollups are NOT held to a 10 threshold (the code only
requires a positive at-bat sum); see the counterexample. -/
theorem detailed_splits_min_atBats (env : Env) (pid sea : ℤ) (k : SplitKey)
    (d : RepRecord)
    (hmem : (k, d) ∈ (get_detailed_pitch_splits env pid sea).splits) :
    5 ≤ d.atBats := by
  simp only [get_detailed_pitch_splits] at hmem
  rcases List.mem_append.1 hmem with hL | hR
  · obtain ⟨p, _, hp⟩ := mem_pitchPhase.1 hL
    exact mem_perPitch_atBats hp
  · obtain ⟨gp, _, h, _, hne, _, _, hd⟩ := mem_groupEntries hR
    subst hd
    rw [show RepRecord.atBats (.rollup (groupRollup gp.1 h
      (groupConstituents (pitchPhase env) gp.2 h))) =
      ((groupConstituents (pitchPhase env) gp.2 h).map (fun c => c.atBats)).sum from rfl]
    apply sum_ge_of_all_ge
    · intro x hx
      obtain ⟨c, hc, hxc⟩ := List.mem_map.1 hx
      subst hxc
      exact groupConstituents_atBats hc
    · intro hmap
      exact hne (List.map_eq_nil_iff.1 hmap)

/-- C2 counterexample: in the only-curveball environment, the report stores the
group rollup `group_Breaking_hand_L` with only 5 at-bats, below the 10
threshold the claim asserts for `group_` keys. -/
theorem detailed_splits_group_ten_counterexample :
    (findSplit (get_detailed_pitch_splits envOnlyCU 0 2024).splits
      (.group "Breaking" "L")).map RepRecord.atBats = some 5 ∧ ((5 : ℤ) < 10) :=
  ⟨by decide, by decide⟩

/-- C2 witness: the `pitch_CU` record stored in the only-curveball environment
has at least 5 at-bats. -/
theorem detailed_splits_min_atBats_witness :
    ((SplitKey.pitch "CU" : SplitKey), cuPitchRecord) ∈
      (get_detailed_pitch_splits envOnlyCU 0 2024).splits ∧
    5 ≤ cuPitchRecord.atBats := by
  have hfind : findSplit (get_detailed_pitch_splits envOnlyCU 0 2024).splits
      (.pitch "CU") = some cuPitchRecord :=
    isSome_eq_some_getD _ (.rollup (groupRollup "" "" [])) (by decide)
  exact ⟨findSplit_mem hfind,
    detailed_splits_min_atBats envOnlyCU 0 2024 _ _ (findSplit_mem hfind)⟩

theorem mem_callsLoc {p h : String} {pr : FetchParams} (hm : pr ∈ callsLoc p h) :
    ∃ l ∈ locations, pr = ⟨some p, some h, some l⟩ := by
  obtain ⟨l, hl, hpr⟩ := List.mem_map.1 hm
  exact ⟨l, hl, hpr.symm⟩

theorem mem_callsHand {env : Env} {p : String} {pr : FetchParams}
    (hm : pr ∈ callsHand env p) :
    ∃ h ∈ pitcher_hands, (pr = ⟨some p, some h, none⟩ ∨
      (∃ r, fetchSplit env ⟨some p, some h, none⟩ = some r ∧ 5 ≤ r.atBats ∧
        pr ∈ callsLoc p h)) := by
  simp only [callsHand, List.mem_flatMap] at hm
  obtain ⟨h, hh, hmem⟩ := hm
  refine ⟨h, hh, ?_⟩
  rcases List.mem_cons.1 hmem with hhead | htail
  · exact Or.inl hhead
  · cases hf : fetchSplit env ⟨some p, some h, none⟩ with
    | none => rw [hf] at htail; simp at htail
    | some r =>
      rw [hf] at htail
      have htail2 : pr ∈ (if 5 ≤ r.atBats then callsLoc p h else []) := htail
      by_cases h5 : 5 ≤ r.atBats
      · rw [if_pos h5] at htail2
        exact Or.inr ⟨r, rfl, h5, htail2⟩
      · rw [if_neg h5] at htail2
        simp at htail2

theorem mem_callsPitch {env : Env} {p : String} {pr : FetchParams}
    (hm : pr ∈ callsPitch env p) :
    pr = ⟨some p, none, none⟩ ∨
      (∃ r, fetchSplit env ⟨some p, none, none⟩ = some r ∧ 5 ≤ r.atBats ∧
        pr ∈ callsHand env p) := by
  simp only [callsPitch] at hm
  rcases List.mem_cons.1 hm with hhead | htail
  · exact Or.inl hhead
  · cases hf : fetchSplit env ⟨some p, none, none⟩ with
    | none => rw [hf] at htail; simp at htail
    | some r =>
      rw [hf] at htail
      have htail2 : pr ∈ (if 5 ≤ r.atBats then callsHand env p else []) := htail
      by_cases h5 : 5 ≤ r.atBats
      · rw [if_pos h5] at htail2
        exact Or.inr ⟨r, rfl, h5, htail2⟩
      · rw [if_neg h5] at htail2
        simp at htail2

theorem mem_callsHand_pitch_type {env : Env} {p : String} {pr : FetchParams}
    (hm : pr ∈ callsHand env p) : pr.pitch_type = some p := by
  obtain ⟨h, _, hcase⟩ := mem_callsHand hm
  rcases hcase with hpr | ⟨r, _, _, hloc⟩
  · subst hpr
    rfl
  · obtain ⟨l, _, hpr⟩ := mem_callsLoc hloc
    subst hpr
    rfl

theorem mem_callsPitch_pitch_type {env : Env} {p : String} {pr : FetchParams}
    (hm : pr ∈ callsPitch env p) : pr.pitch_type = some p := by
  rcases mem_callsPitch hm with hpr | ⟨r, _, _, hhand⟩
  · subst hpr
    rfl
  · exact mem_callsHand_pitch_type hhand

/-- C5: the expansion of `get_detailed_pitch_splits` is gated and depth-limited:
a by-handedness fetch for pitch `p` is issued only when `p`'s overall record
cleared the 5-at-bat threshold; a by-location fetch for `(p, h)` only when the
`(p, h)` record cleared it.  Consequently a `pitch_P_hand_H_loc_L` key in the
report implies the `pitch_P_hand_H` key is present, and a `pitch_P_hand_H` key
implies the `pitch_P` key is present. -/
theorem detailed_splits_gated_expansion (env : Env) (p h : String) (pid sea : ℤ) :
    (∀ pr ∈ detailedCalls env, pr.pitch_type = some p → pr.pitcher_throws ≠ none →
      ∃ r, fetchSplit env ⟨some p, none, none⟩ = some r ∧ 5 ≤ r.atBats) ∧
    (∀ pr ∈ detailedCalls env, pr.pitch_type = some p → pr.pitcher_throws = some h →
      pr.home_road ≠ none →
      ∃ r, fetchSplit env ⟨some p, some h, none⟩ = some r ∧ 5 ≤ r.atBats) ∧
    (∀ l, keyPresent (get_detailed_pitch_splits env pid sea).splits
        (.pitchHandLoc p h l) →
      keyPresent (get_detailed_pitch_splits env pid sea).splits (.pitchHand p h)) ∧
    (keyPresent (get_detailed_pitch_splits env pid sea).splits (.pitchHand p h) →
      keyPresent (get_detailed_pitch_splits env pid sea).splits (.pitch p)) := by
  refine ⟨?_, ?_, ?_, ?_⟩
  · intro pr hpr hpt hthrows
    simp only [detailedCalls, List.mem_flatMap] at hpr
    obtain ⟨q, _, hq2⟩ := hpr
    have h1 := mem_callsPitch_pitch_type hq2
    rw [hpt] at h1
    injection h1 with he
    subst he
    rcases mem_callsPitch hq2 with hpre | ⟨r, hfr, h5, _⟩
    · subst hpre
      simp at hthrows
    · exact ⟨r, hfr, h5⟩
  · intro pr hpr hpt hth hhr
    simp only [detailedCalls, List.mem_flatMap] at hpr
    obtain ⟨q, _, hq2⟩ := hpr
    have h1 := mem_callsPitch_pitch_type hq2
    rw [hpt] at h1
    injection h1 with he
    subst he
    rcases mem_callsPitch hq2 with hpre | ⟨r, _, _, hhand⟩
    · subst hpre
      simp at hth
    · obtain ⟨h', _, hcase⟩ := mem_callsHand hhand
      rcases hcase with hpre | ⟨rh, hfh, h5h, hloc⟩
      · subst hpre
        simp at hhr
      · obtain ⟨l, _, hpre⟩ := mem_callsLoc hloc
        subst hpre
        simp only [] at hth
        injection hth with he2
        subst he2
        exact ⟨rh, hfh, h5h⟩
  · intro l hkp
    obtain ⟨d, hd⟩ := hkp
    simp only [get_detailed_pitch_splits] at hd
    rcases List.mem_append.1 hd with hL | hR
    · obtain ⟨q, hqtypes, hq⟩ := mem_pitchPhase.1 hL
      obtain ⟨rp, hfrp, h5p, hcase⟩ := mem_perPitch hq
      rcases hcase with ⟨hk, _⟩ | hhand
      · exact absurd hk (by simp)
      · obtain ⟨h', hh', rh, hfh, h5h, hcase2⟩ := mem_perHand hhand
        rcases hcase2 with ⟨hk, _⟩ | hloc
        · exact absurd hk (by simp)
        · obtain ⟨l', _, rl, _, _, hk, _⟩ := mem_perLoc hloc
          injection hk with e1 e2 e3
          subst e1
          subst e2
          refine ⟨.fetched rh, ?_⟩
          simp only [get_detailed_pitch_splits]
          exact List.mem_append_left _ (mem_pitchPhase.2
            ⟨p, hqtypes, perPitch_intro_hand hfrp h5p (perHand_intro hh' hfh h5h)⟩)
    · obtain ⟨gp, _, h', _, _, _, hk, _⟩ := mem_groupEntries hR
      exact absurd hk (by simp)
  · intro hkp
    obtain ⟨d, hd⟩ := hkp
    simp only [get_detailed_pitch_splits] at hd
    rcases List.mem_append.1 hd with hL | hR
    · obtain ⟨q, hqtypes, hq⟩ := mem_pitchPhase.1 hL
      obtain ⟨rp, hfrp, h5p, hcase⟩ := mem_perPitch hq
      rcases hcase with ⟨hk, _⟩ | hhand
      · exact absurd hk (by simp)
      · obtain ⟨h', hh', rh, hfh, h5h, hcase2⟩ := mem_perHand hhand
        rcases hcase2 with ⟨hk, _⟩ | hloc
        · injection hk with e1 e2
          subst e1
          refine ⟨.fetched rp, ?_⟩
          simp only [get_detailed_pitch_splits]
          exact List.mem_append_left _ (mem_pitchPhase.2
            ⟨p, hqtypes, perPitch_intro_pitch hfrp h5p⟩)
        · obtain ⟨l', _, rl, _, _, hk, _⟩ := mem_perLoc hloc
          exact absurd hk (by simp)
    · obtain ⟨gp, _, h', _, _, _, hk, _⟩ := mem_groupEntries hR
      exact absurd hk (by simp)

/-- C5 witness: in the only-curveball environment the `pitch_CU_hand_L` key is
present, so the theorem yields presence of the `pitch_CU` key. -/
theorem detailed_splits_gated_expansion_witness :
    keyPresent (get_detailed_pitch_splits envOnlyCU 0 2024).splits
      (.pitch "CU") := by
  have hfind : findSplit (get_detailed_pitch_splits envOnlyCU 0 2024).splits
      (.pitchHand "CU" "L") = some cuHandRecord :=
    isSome_eq_some_getD _ (.rollup (groupRollup "" "" [])) (by decide)
  exact (detailed_splits_gated_expansion envOnlyCU "CU" "L" 0 2024).2.2.2
    ⟨cuHandRecord, findSplit_mem hfind⟩

theorem fetchSplit_congr {env1 env2 : Env} {pr : FetchParams}
    (h : env1 pr = env2 pr) : fetchSplit env1 pr = fetchSplit env2 pr := by
  simp only [fetchSplit, h]

theorem perLoc_congr {env1 env2 : Env} {p h : String}
    (hagree : ∀ pr : FetchParams, pr.pitch_type = some p → env1 pr = env2 pr) :
    perLoc env1 p h = perLoc env2 p h := by
  apply flatMapCongr
  intro l _
  rw [fetchSplit_congr (hagree ⟨some p, some h, some l⟩ rfl)]

theorem perHand_congr {env1 env2 : Env} {p : String}
    (hagree : ∀ pr : FetchParams, pr.pitch_type = some p → env1 pr = env2 pr) :
    perHand env1 p = perHand env2 p := by
  apply flatMapCongr
  intro h _
  rw [fetchSplit_congr (hagree ⟨some p, some h, none⟩ rfl), perLoc_congr hagree]

theorem perPitch_congr {env1 env2 : Env} {p : String}
    (hagree : ∀ pr : FetchParams, pr.pitch_type = some p → env1 pr = env2 pr) :
    perPitch env1 p = perPitch env2 p := by
  simp only [perPitch]
  rw [fetchSplit_congr (hagree ⟨some p, none, none⟩ rfl), perHand_congr hagree]

/-- C1: the notable-splits list produced by the summarizer contains only
projections of non-group report entries with at least 10 at-bats (and a numeric
average), is sorted by parsed batting average descending (an "N/A" average
parses as 0), and has at most 5 elements. -/
theorem notable_splits_spec (splits : Report) :
    (generate_performance_summary_notable splits).length ≤ 5 ∧
    (generate_performance_summary_notable splits).Pairwise
      (fun a b => notableKey b ≤ notableKey a) ∧
    ∀ e ∈ generate_performance_summary_notable splits,
      10 ≤ e.ab ∧ ∃ kd, kd ∈ splits ∧ kd.1.isGroup = false ∧
        10 ≤ kd.2.atBats ∧ kd.2.avg ≠ RateVal.na ∧ e = toNotable kd.2 := by
  refine ⟨?_, ?_, ?_⟩
  · simp only [generate_performance_summary_notable, List.length_take]
    exact min_le_left _ _
  · have hs : ((notablePool splits).mergeSort notableLe).Pairwise
        (fun a b => notableLe a b = true) := by
      apply List.sorted_mergeSort
      · intro a b c hab hbc
        simp only [notableLe, decide_eq_true_eq] at hab hbc ⊢
        exact le_trans hbc hab
      · intro a b
        simp only [notableLe, Bool.or_eq_true, decide_eq_true_eq]
        exact le_total _ _
    have hs2 : ((notablePool splits).mergeSort notableLe).Pairwise
        (fun a b => notableKey b ≤ notableKey a) :=
      hs.imp (fun hab => by simpa [notableLe, decide_eq_true_eq] using hab)
    exact hs2.sublist (List.take_sublist 5 _)
  · intro e he
    have he2 : e ∈ (notablePool splits).mergeSort notableLe :=
      List.take_subset _ _ he
    have he3 : e ∈ notablePool splits := List.mem_mergeSort.1 he2
    simp only [notablePool, List.mem_filterMap] at he3
    obtain ⟨kd, hkd, hfn⟩ := he3
    by_cases hc1 : 10 ≤ kd.2.atBats ∧ kd.2.avg ≠ RateVal.na
    · rw [if_pos hc1] at hfn
      by_cases hc2 : kd.1.isGroup = false
      · rw [if_pos hc2] at hfn
        injection hfn with he4
        constructor
        · rw [← he4]
          exact hc1.1
        · exact ⟨kd, hkd, hc2, hc1.1, hc1.2, he4.symm⟩
      · rw [if_neg hc2] at hfn
        exact absurd hfn (by simp)
    · rw [if_neg hc1] at hfn
      exact absurd hfn (by simp)

/-- C1 witness: the summarizer's guarantees instantiated on the sample report. -/
theorem notable_splits_spec_witness :
    (generate_performance_summary_notable sampleReport).length ≤ 5 ∧
    (generate_performance_summary_notable sampleReport).Pairwise
      (fun a b => notableKey b ≤ notableKey a) :=
  ⟨(notable_splits_spec sampleReport).1, (notable_splits_spec sampleReport).2.1⟩

/-- C3: both fetchers always recompute OPS locally as obp + slg from the same
row; whenever both constituent columns are present in the response, the stored
`ops` equals the sum of the stored `obp` and `slg`, and no upstream `ops`
column is ever consulted (the response's value at an "ops" column is
unconstrained in the statement). -/
theorem ops_recomputed_locally (pn pv : String) (params : FetchParams)
    (resp1 resp2 : Response) :
    (∀ r, get_baseball_savant_data pn pv resp1 = some r → r.ops = r.obp + r.slg) ∧
    (∀ r a b, get_combined_split_data params resp2 = some r →
      r.obp = RateVal.num a → r.slg = RateVal.num b → r.ops = RateVal.num (a + b)) := by
  constructor
  · intro r hr
    simp only [get_baseball_savant_data] at hr
    by_cases h200 : resp1.status = 200
    · rw [if_pos h200] at hr
      by_cases hempty : resp1.csv.isEmpty = false
      · rw [if_pos hempty] at hr
        by_cases hcols : required_columns.all (fun c => c ∈ resp1.csv.cols) = true
        · rw [if_pos hcols] at hr
          by_cases hpt : pn = "pitcher_throws"
          · rw [if_pos hpt] at hr
            injection hr with hr2
            subst hr2
            rfl
          · rw [if_neg hpt] at hr
            by_cases hhr : pn = "home_road"
            · rw [if_pos hhr] at hr
              injection hr with hr2
              subst hr2
              rfl
            · rw [if_neg hhr] at hr
              exact absurd hr (by simp)
        · rw [if_neg hcols] at hr
          exact absurd hr (by simp)
      · rw [if_neg hempty] at hr
        exact absurd hr (by simp)
    · rw [if_neg h200] at hr
      exact absurd hr (by simp)
  · intro r a b hr hobp hslg
    simp only [get_combined_split_data] at hr
    by_cases h200 : resp2.status = 200
    · rw [if_pos h200] at hr
      by_cases hempty : resp2.csv.isEmpty = false
      · rw [if_pos hempty] at hr
        by_cases habs : "abs" ∈ resp2.csv.cols ∧ 0 < resp2.csv.val "abs"
        · rw [if_pos habs] at hr
          injection hr with hr2
          subst hr2
          by_cases ho : "obp" ∈ resp2.csv.cols
          · by_cases hs : "slg" ∈ resp2.csv.cols
            · simp only [if_pos ho, if_pos hs, if_pos (And.intro ho hs)] at hobp hslg ⊢
              injection hobp with ha
              injection hslg with hb
              rw [← ha, ← hb]
            · simp only [if_neg hs] at hslg
              exact absurd hslg (by simp)
          · simp only [if_neg ho] at hobp
            exact absurd hobp (by simp)
        · rw [if_neg habs] at hr
          exact absurd hr (by simp)
      · rw [if_neg hempty] at hr
        exact absurd hr (by simp)
    · rw [if_neg h200] at hr
      exact absurd hr (by simp)

/-- C3 witness: the parsed concrete records carry ops = obp + slg. -/
theorem ops_recomputed_locally_witness :
    savantFromOk.ops = savantFromOk.obp + savantFromOk.slg ∧
    combinedFromOk.ops = RateVal.num ((okResponse 20 (3 / 10)).csv.val "obp" +
      (okResponse 20 (3 / 10)).csv.val "slg") := by
  have h1 : get_baseball_savant_data "pitcher_throws" "R" (okResponse 20 (3 / 10)) =
      some savantFromOk :=
    isSome_eq_some_getD _ ⟨0, 0, 0, 0, 0, 0, 0, 0, 0, 0, 0, 0⟩ (by decide)
  have h2 : get_combined_split_data ⟨some "FF", none, none⟩
      (okResponse 20 (3 / 10)) = some combinedFromOk :=
    isSome_eq_some_getD _ junkSplitRecord (by decide)
  exact ⟨(ops_recomputed_locally "pitcher_throws" "R" ⟨some "FF", none, none⟩
      (okResponse 20 (3 / 10)) (okResponse 20 (3 / 10))).1 savantFromOk h1,
    (ops_recomputed_locally "pitcher_throws" "R" ⟨some "FF", none, none⟩
      (okResponse 20 (3 / 10)) (okResponse 20 (3 / 10))).2 combinedFromOk
      ((okResponse 20 (3 / 10)).csv.val "obp")
      ((okResponse 20 (3 / 10)).csv.val "slg") h2 rfl rfl⟩

/-- C4 (amended): for a non-empty constituent set whose averages are all
numeric, the group rollup's `atBats` and `homeRuns` are true sums and its
average is the arithmetic mean of the constituents' averages rounded to three
decimal places (the claim omits the rounding; the spec's worked example .250/.300
with 20/30 at-bats still yields exactly .275 and 50, see the witness). -/
theorem group_rollup_mean (g h : String) (l : List RepRecord)
    (hne : l ≠ []) (hnum : ∀ d ∈ l, d.avg ≠ RateVal.na) :
    (groupRollup g h l).avg =
      RateVal.num (round3 (((l.map (fun d => d.avg.toRat)).sum) / (l.length : ℚ))) ∧
    (groupRollup g h l).atBats = (l.map (fun d => d.atBats)).sum ∧
    (groupRollup g h l).homeRuns = (l.map (fun d => d.homeRuns)).sum := by
  refine ⟨?_, rfl, rfl⟩
  have hf : l.filter (fun d => d.avg ≠ RateVal.na) = l := by
    rw [List.filter_eq_self]
    intro a ha
    simpa using hnum a ha
  show RateVal.num (round3
      (((l.filter (fun d => d.avg ≠ RateVal.na)).map (fun d => d.avg.toRat)).sum /
        (l.length : ℚ))) = _
  rw [hf]

/-- C4 counterexample: with three numeric constituents averaging .250, .250 and
.300 the rollup's average is the rounded .267, not the exact mean 4/15; so
"avg equal to the arithmetic mean of the constituents' averages" fails as
stated. -/
theorem group_rollup_mean_counterexample :
    (groupRollup "Breaking" "L" breakingThirds).avg ≠
      RateVal.num (((breakingThirds.map (fun d => d.avg.toRat)).sum) /
        (breakingThirds.length : ℚ)) := by
  simp [groupRollup, breakingThirds, mkConstituent, RepRecord.avg, RateVal.toRat]
  norm_num [round3, roundHalfEven]

/-- C4 witness: on the spec's worked example the rollup average is exactly .275
and the summed at-bats are 50. -/
theorem group_rollup_mean_witness :
    ((groupRollup "Breaking" "L" breakingExample).avg =
      RateVal.num (round3 (((breakingExample.map (fun d => d.avg.toRat)).sum) /
        (breakingExample.length : ℚ))) ∧
     (groupRollup "Breaking" "L" breakingExample).atBats =
      (breakingExample.map (fun d => d.atBats)).sum ∧
     (groupRollup "Breaking" "L" breakingExample).homeRuns =
      (breakingExample.map (fun d => d.homeRuns)).sum) ∧
    round3 (((breakingExample.map (fun d => d.avg.toRat)).sum) /
      (breakingExample.length : ℚ)) = 275 / 1000 ∧
    (breakingExample.map (fun d => d.atBats)).sum = 50 := by
  refine ⟨group_rollup_mean "Breaking" "L" breakingExample (by decide) (by decide),
    ?_, by decide⟩
  simp [breakingExample, mkConstituent, RepRecord.avg, RateVal.toRat]
  norm_num [round3, roundHalfEven]

/-- C10 (amended): in the group rollup, "N/A" averages are excluded from the
numerator but still counted in the divisor: the stored average is the numeric
sum divided by the TOTAL constituent count, rounded to three decimals; and
whenever at least one constituent is "N/A" and the numeric sum is positive, the
unrounded quotient is strictly below the arithmetic mean of the numeric
averages.  (As literally stated the claim fails twice: the stored value is
rounded, and strictness fails when every numeric average is zero - see the
counterexample.) -/
theorem group_rollup_na_divisor (g h : String) (l : List RepRecord)
    (hna : ∃ d ∈ l, d.avg = RateVal.na)
    (hpos : 0 < numericAvgSum l) :
    (groupRollup g h l).avg =
      RateVal.num (round3 (numericAvgSum l / (l.length : ℚ))) ∧
    numericAvgSum l / (l.length : ℚ) <
      numericAvgSum l / (numericAvgCount l : ℚ) := by
  constructor
  · rfl
  · have hmlt : numericAvgCount l < l.length := by
      apply length_filter_lt_of_exists
      obtain ⟨d, hd, hdna⟩ := hna
      exact ⟨d, hd, by simp [hdna]⟩
    have hm0 : 0 < numericAvgCount l := by
      by_contra hc
      push_neg at hc
      have h0 : numericAvgCount l = 0 := Nat.le_zero.1 hc
      have hnil : l.filter (fun d => d.avg ≠ RateVal.na) = [] :=
        List.length_eq_zero.1 h0
      rw [numericAvgSum, hnil] at hpos
      simp at hpos
    apply div_lt_div_of_pos_left hpos
    · exact_mod_cast hm0
    · exact_mod_cast hmlt

/-- C10 counterexample: with constituents .100/.100/"N/A" the stored average is
the rounded .067, not the exact quotient 1/15; and with constituents
0/"N/A" the stored average equals the numeric mean 0, so strict inequality
fails. -/
theorem group_rollup_na_divisor_counterexample :
    (groupRollup "Breaking" "L" naThirds).avg ≠
      RateVal.num (numericAvgSum naThirds / (naThirds.length : ℚ)) ∧
    ¬ ((groupRollup "Breaking" "L" naZero).avg.toRat <
      numericAvgSum naZero / (numericAvgCount naZero : ℚ)) := by
  constructor
  · simp [groupRollup, naThirds, mkConstituent, RepRecord.avg, RateVal.toRat,
      numericAvgSum]
    norm_num [round3, roundHalfEven]
  · simp [groupRollup, naZero, mkConstituent, RepRecord.avg, RateVal.toRat,
      numericAvgSum, numericAvgCount]
    norm_num [round3, roundHalfEven]

/-- C10 witness: the theorem instantiated on the .100/.100/"N/A" constituents. -/
theorem group_rollup_na_divisor_witness :
    (groupRollup "Breaking" "L" naThirds).avg =
      RateVal.num (round3 (numericAvgSum naThirds / (naThirds.length : ℚ))) ∧
    numericAvgSum naThirds / (naThirds.length : ℚ) <
      numericAvgSum naThirds / (numericAvgCount naThirds : ℚ) :=
  group_rollup_na_divisor "Breaking" "L" naThirds
    ⟨mkConstituent RateVal.na RateVal.na 20 0, by decide, rfl⟩
    (by simp [numericAvgSum, naThirds, mkConstituent, RepRecord.avg, RateVal.toRat])

/-- C6 (amended): the identity resolver returns `none` for an empty directory
result (NotFound) and otherwise the numeric id of the FIRST candidate - also
when several candidates match; it never returns the candidate list (its result
type is a single optional id). -/
theorem get_player_id_spec (l : List PlayerInfo) :
    (l = [] → get_player_id l = none) ∧
    (∀ p rest, l = p :: rest → get_player_id l = some p.id) := by
  constructor
  · intro h
    subst h
    rfl
  · intro p rest h
    subst h
    rfl

/-- C6 counterexample: for an ambiguous two-candidate lookup result the
resolver returns the single numeric identifier 7 of the first candidate, not
the candidate list. -/
theorem get_player_id_ambiguous_counterexample :
    get_player_id [⟨7, "Alice Jones"⟩, ⟨8, "Bob Jones"⟩] = some 7 := rfl

/-- C6 witness: the amended behaviour at an empty and a one-candidate result. -/
theorem get_player_id_spec_witness :
    get_player_id [] = none ∧
    get_player_id [⟨3, "Cal Smith"⟩] = some (3 : ℤ) :=
  ⟨(get_player_id_spec []).1 rfl,
   (get_player_id_spec [⟨3, "Cal Smith"⟩]).2 ⟨3, "Cal Smith"⟩ [] rfl⟩

/-- C8 (amended): `get_combined_split_data` reads every field defensively - an
absent column yields the documented default ("N/A" for rate stats, 0 for
counts) in the returned record - but `get_baseball_savant_data` does NOT: any
missing required column makes it discard the whole fetch and return `None`. -/
theorem defensive_field_defaults (params : FetchParams) (resp respS : Response)
    (pn pv : String) (h200 : resp.status = 200) (hnemp : resp.csv.isEmpty = false)
    (habs : "abs" ∈ resp.csv.cols) (hpos : 0 < resp.csv.val "abs") :
    (∃ r, get_combined_split_data params resp = some r ∧
      ("ba" ∉ resp.csv.cols → r.avg = RateVal.na) ∧
      ("slg" ∉ resp.csv.cols → r.slg = RateVal.na) ∧
      ("obp" ∉ resp.csv.cols → r.obp = RateVal.na) ∧
      (¬ ("obp" ∈ resp.csv.cols ∧ "slg" ∈ resp.csv.cols) → r.ops = RateVal.na) ∧
      ("hrs" ∉ resp.csv.cols → r.homeRuns = 0) ∧
      ("hits" ∉ resp.csv.cols → r.hits = 0) ∧
      ("pa" ∉ resp.csv.cols → r.plateAppearances = 0) ∧
      ("so" ∉ resp.csv.cols → r.strikeOuts = 0) ∧
      ("bb" ∉ resp.csv.cols → r.baseOnBalls = 0)) ∧
    (∀ c ∈ required_columns, c ∉ respS.csv.cols →
      get_baseball_savant_data pn pv respS = none) := by
  constructor
  · simp only [get_combined_split_data, if_pos h200, if_pos hnemp,
      if_pos (And.intro habs hpos)]
    refine ⟨_, rfl, ?_, ?_, ?_, ?_, ?_, ?_, ?_, ?_, ?_⟩ <;> intro hcol
    · show (if "ba" ∈ resp.csv.cols then RateVal.num (resp.csv.val "ba")
        else RateVal.na) = RateVal.na
      rw [if_neg hcol]
    · show (if "slg" ∈ resp.csv.cols then RateVal.num (resp.csv.val "slg")
        else RateVal.na) = RateVal.na
      rw [if_neg hcol]
    · show (if "obp" ∈ resp.csv.cols then RateVal.num (resp.csv.val "obp")
        else RateVal.na) = RateVal.na
      rw [if_neg hcol]
    · show (if "obp" ∈ resp.csv.cols ∧ "slg" ∈ resp.csv.cols then
        RateVal.num (resp.csv.val "obp" + resp.csv.val "slg")
        else RateVal.na) = RateVal.na
      rw [if_neg hcol]
    · show (if "hrs" ∈ resp.csv.cols then pyInt (resp.csv.val "hrs") else 0) = 0
      rw [if_neg hcol]
    · show (if "hits" ∈ resp.csv.cols then pyInt (resp.csv.val "hits") else 0) = 0
      rw [if_neg hcol]
    · show (if "pa" ∈ resp.csv.cols then pyInt (resp.csv.val "pa") else 0) = 0
      rw [if_neg hcol]
    · show (if "so" ∈ resp.csv.cols then pyInt (resp.csv.val "so") else 0) = 0
      rw [if_neg hcol]
    · show (if "bb" ∈ resp.csv.cols then pyInt (resp.csv.val "bb") else 0) = 0
      rw [if_neg hcol]
  · intro c hc hcnot
    simp only [get_baseball_savant_data]
    by_cases h2 : respS.status = 200
    · rw [if_pos h2]
      by_cases he : respS.csv.isEmpty = false
      · rw [if_pos he]
        have hall : ¬ (required_columns.all
            (fun x => x ∈ respS.csv.cols) = true) := by
          intro hcontra
          have := List.all_eq_true.1 hcontra c hc
          exact hcnot (of_decide_eq_true this)
        rw [if_neg hall]
      · rw [if_neg he]
    · rw [if_neg h2]

/-- C8 counterexample: a successful 20-at-bat response that merely lacks the
`ba` column makes `get_baseball_savant_data` discard the whole fetch. -/
theorem savant_missing_column_counterexample :
    responseMissingBa.status = 200 ∧ 0 < responseMissingBa.csv.val "abs" ∧
    get_baseball_savant_data "pitcher_throws" "R" responseMissingBa = none :=
  ⟨by decide, by decide, by decide⟩

/-- C8 witness: on the sparse response the combined fetcher still returns a
record, with "N/A" rate stats and zero counts for the absent columns. -/
theorem defensive_field_defaults_witness :
    get_combined_split_data ⟨some "FF", none, none⟩ responseSparse =
      some sparseRecord ∧
    sparseRecord.avg = RateVal.na ∧ sparseRecord.ops = RateVal.na ∧
    sparseRecord.homeRuns = 0 ∧ sparseRecord.hits = 0 := by
  have hs : get_combined_split_data ⟨some "FF", none, none⟩ responseSparse =
      some sparseRecord :=
    isSome_eq_some_getD _ junkSplitRecord (by decide)
  obtain ⟨r, hr, hba, hslg, hobp, hops, hhrs, hhits, hpa, hso, hbb⟩ :=
    (defensive_field_defaults ⟨some "FF", none, none⟩ responseSparse
      responseSparse "pitcher_throws" "R" (by decide) (by decide) (by decide)
      (by decide)).1
  rw [hs] at hr
  injection hr with he
  subst he
  exact ⟨hs, hba (by decide), hops (by decide), hhrs (by decide), hhits (by decide)⟩

theorem assocFind_setEntry {β : Type} (l : List (String × β)) (k : String) (v : β) :
    assocFind (setEntry l k v) k = some v := by
  induction l with
  | nil => simp [setEntry, assocFind]
  | cons kv rest ih =>
    by_cases hk : kv.1 = k
    · simp [setEntry, hk, assocFind]
    · simp only [setEntry, if_neg hk, assocFind]
      exact ih

/-- C9: the career-file merge replaces the per-season entry wholesale - after an
update the entry under the season key is exactly the new basic-splits document,
irrespective of what was stored before - so running the pipeline twice with
identical remote responses leaves the per-season entry equal to the entry after
a single run. -/
theorem career_update_idempotent (existing : Option CareerData) (name : String)
    (pid : ℤ) (season : String) (basic : BasicSplits) (t1 t2 : String) :
    assocFind (update_career_files existing name pid season basic t1).seasons
      season = some basic ∧
    assocFind (update_career_files
        (some (update_career_files existing name pid season basic t1))
        name pid season basic t2).seasons season
      = assocFind (update_career_files existing name pid season basic t1).seasons
          season := by
  have hseasons : ∀ (ex : Option CareerData) (t : String),
      (update_career_files ex name pid season basic t).seasons =
      setEntry (ex.getD emptyCareer).seasons season basic := by
    intro ex t
    simp only [update_career_files, emptyCareer]
    by_cases hp : (ex.getD emptyCareer).player = none
    · rw [if_pos (by simpa [emptyCareer] using hp)]
    · rw [if_neg (by simpa [emptyCareer] using hp)]
  constructor
  · rw [hseasons]
    exact assocFind_setEntry _ _ _
  · rw [hseasons, hseasons]
    rw [assocFind_setEntry, assocFind_setEntry]

theorem get_combined_none_of_status {params : FetchParams} {resp : Response}
    (h : resp.status ≠ 200) : get_combined_split_data params resp = none := by
  simp [get_combined_split_data, h]

theorem fetchSplit_none_of_status {env : Env} {pr : FetchParams}
    (h : (env pr).status ≠ 200) : fetchSplit env pr = none :=
  get_combined_none_of_status h

theorem savant_none_of_status {pn pv : String} {resp : Response}
    (h : resp.status ≠ 200) : get_baseball_savant_data pn pv resp = none := by
  simp [get_baseball_savant_data, h]

theorem fetch_mask_eq_of_not {env : Env} {pr pr2 : FetchParams}
    (h : inSubtree pr pr2 = false) :
    fetchSplit (maskSubtree env pr) pr2 = fetchSplit env pr2 := by
  simp only [fetchSplit, maskSubtree, h]
  simp

theorem fetch_mask_none_of {env : Env} {pr pr2 : FetchParams}
    (h : inSubtree pr pr2 = true) :
    fetchSplit (maskSubtree env pr) pr2 = none := by
  have hm : maskSubtree env pr pr2 = notFoundResponse := by
    simp [maskSubtree, h]
  simp only [fetchSplit, hm]
  exact get_combined_none_of_status (by simp [notFoundResponse])

theorem inSubtree_overall_eq {pr : FetchParams} {p : String}
    (h : inSubtree pr ⟨some p, none, none⟩ = true) :
    pr = ⟨some p, none, none⟩ := by
  obtain ⟨pt, th, hr⟩ := pr
  rcases pt with _ | P <;> rcases th with _ | H <;> rcases hr with _ | L <;>
    simp_all [inSubtree]

theorem inSubtree_hand_eq {pr : FetchParams} {p h : String}
    (hin : inSubtree pr ⟨some p, some h, none⟩ = true) :
    pr = ⟨some p, some h, none⟩ ∨ pr = ⟨some p, none, none⟩ := by
  obtain ⟨pt, th, hr⟩ := pr
  rcases pt with _ | P <;> rcases th with _ | H <;> rcases hr with _ | L <;>
    simp_all [inSubtree]

theorem inSubtree_loc_eq {pr : FetchParams} {p h l : String}
    (hin : inSubtree pr ⟨some p, some h, some l⟩ = true) :
    pr = ⟨some p, some h, some l⟩ ∨ pr = ⟨some p, none, none⟩ ∨
      pr = ⟨some p, some h, none⟩ := by
  obtain ⟨pt, th, hr⟩ := pr
  rcases pt with _ | P <;> rcases th with _ | H <;> rcases hr with _ | L <;>
    simp_all [inSubtree]

theorem detailed_congr_gated (env1 env2 : Env) (pid sea : ℤ)
    (hov : ∀ p, fetchSplit env1 ⟨some p, none, none⟩ =
      fetchSplit env2 ⟨some p, none, none⟩)
    (hhand : ∀ p h, fetchSplit env1 ⟨some p, none, none⟩ ≠ none →
      fetchSplit env1 ⟨some p, some h, none⟩ =
      fetchSplit env2 ⟨some p, some h, none⟩)
    (hloc : ∀ p h l, fetchSplit env1 ⟨some p, none, none⟩ ≠ none →
      fetchSplit env1 ⟨some p, some h, none⟩ ≠ none →
      fetchSplit env1 ⟨some p, some h, some l⟩ =
      fetchSplit env2 ⟨some p, some h, some l⟩) :
    get_detailed_pitch_splits env1 pid sea = get_detailed_pitch_splits env2 pid sea := by
  have hphase : pitchPhase env1 = pitchPhase env2 := by
    apply flatMapCongr
    intro p _
    simp only [perPitch]
    rw [hov p]
    cases hf2 : fetchSplit env2 ⟨some p, none, none⟩ with
    | none => rfl
    | some r =>
      have hne1 : fetchSplit env1 ⟨some p, none, none⟩ ≠ none := by
        rw [hov p, hf2]
        simp
      have hhand2 : perHand env1 p = perHand env2 p := by
        apply flatMapCongr
        intro h _
        rw [hhand p h hne1]
        cases hfh2 : fetchSplit env2 ⟨some p, some h, none⟩ with
        | none => rfl
        | some rh =>
          have hneh : fetchSplit env1 ⟨some p, some h, none⟩ ≠ none := by
            rw [hhand p h hne1, hfh2]
            simp
          have hperloc : perLoc env1 p h = perLoc env2 p h := by
            apply flatMapCongr
            intro l _
            rw [hloc p h l hne1 hneh]
          rw [hperloc]
      rw [hhand2]
  simp only [get_detailed_pitch_splits, hphase]

theorem mem_basic_splits {senv : SavantEnv} {key : String} {s : SavantRecord}
    (hm : (key, s) ∈ get_complete_player_basic_splits senv) :
    ∃ t ∈ savant_basic_queries, key = t.2.2 ∧
      get_baseball_savant_data t.1 t.2.1 (senv t.1 t.2.1) = some s := by
  simp only [get_complete_player_basic_splits, List.mem_flatMap] at hm
  obtain ⟨t, ht, hmem⟩ := hm
  refine ⟨t, ht, ?_⟩
  cases hf : get_baseball_savant_data t.1 t.2.1 (senv t.1 t.2.1) with
  | none =>
    rw [hf] at hmem
    simp at hmem
  | some u =>
    rw [hf] at hmem
    have hmem2 : (key, s) ∈ [(t.2.2, u)] := hmem
    simp only [List.mem_singleton, Prod.mk.injEq] at hmem2
    refine ⟨hmem2.1, ?_⟩
    rw [hmem2.2]

theorem savant_queries_key_inj :
    ∀ t1 ∈ savant_basic_queries, ∀ t2 ∈ savant_basic_queries,
      t1.2.2 = t2.2.2 → t1 = t2 := by decide

/-- C7: for EVERY dimension fetch that receives a non-success HTTP status, the
fetcher returns "no data" rather than raising - `get_combined_split_data` for
any pitch/handedness/location combination and `get_baseball_savant_data` for
any basic split - the caller skips only that dimension while collection of all
remaining dimensions continues, and the final report simply omits that
dimension's key: the detailed report contains no key of the failed dimension's
subtree and equals the report computed when exactly that subtree fails, and the
basic-splits collection omits the failed split's key and equals the collection
computed when exactly that split fails. -/
theorem detailed_splits_skip_on_error (env : Env) (senv : SavantEnv)
    (pr : FetchParams) (pn pv : String) (pid sea : ℤ)
    (hstat : (env pr).status ≠ 200) (hsav : (senv pn pv).status ≠ 200) :
    fetchSplit env pr = none ∧
    get_baseball_savant_data pn pv (senv pn pv) = none ∧
    (∀ k d, (k, d) ∈ (get_detailed_pitch_splits env pid sea).splits →
      ¬ keyInSubtree pr k) ∧
    get_detailed_pitch_splits env pid sea =
      get_detailed_pitch_splits (maskSubtree env pr) pid sea ∧
    (∀ t ∈ savant_basic_queries, t.1 = pn → t.2.1 = pv →
      ∀ s : SavantRecord, (t.2.2, s) ∉ get_complete_player_basic_splits senv) ∧
    get_complete_player_basic_splits senv =
      get_complete_player_basic_splits (maskSavant senv pn pv) := by
  have h1 : fetchSplit env pr = none := fetchSplit_none_of_status hstat
  have h2 : get_baseball_savant_data pn pv (senv pn pv) = none :=
    savant_none_of_status hsav
  refine ⟨h1, h2, ?_, ?_, ?_, ?_⟩
  · -- the report contains no key of the failed dimension's subtree
    obtain ⟨pt, th, hr⟩ := pr
    rcases pt with _ | P <;> rcases th with _ | H <;> rcases hr with _ | L
    · intro k d _ hks
      simp [keyInSubtree] at hks
    · intro k d _ hks
      simp [keyInSubtree] at hks
    · intro k d _ hks
      simp [keyInSubtree] at hks
    · intro k d _ hks
      simp [keyInSubtree] at hks
    · -- pitch-overall dimension
      intro k d hm hks
      simp only [keyInSubtree] at hks
      simp only [get_detailed_pitch_splits] at hm
      rcases List.mem_append.1 hm with hL | hR
      · obtain ⟨q, _, hq⟩ := mem_pitchPhase.1 hL
        have hqk := mem_perPitch_pitchOf hq
        rw [hks] at hqk
        injection hqk with he
        subst he
        obtain ⟨r, hf, _, _⟩ := mem_perPitch hq
        rw [h1] at hf
        exact Option.noConfusion hf
      · obtain ⟨gp, _, h', _, _, _, hk, _⟩ := mem_groupEntries hR
        subst hk
        simp [SplitKey.pitchOf] at hks
    · intro k d _ hks
      simp [keyInSubtree] at hks
    · -- pitch-and-handedness dimension
      intro k d hm hks
      simp only [keyInSubtree] at hks
      simp only [get_detailed_pitch_splits] at hm
      rcases List.mem_append.1 hm with hL | hR
      · obtain ⟨q, _, hq⟩ := mem_pitchPhase.1 hL
        obtain ⟨rp, hfp, h5p, hc⟩ := mem_perPitch hq
        rcases hc with ⟨hk, _⟩ | hhand
        · rcases hks with hk2 | ⟨L', hk2⟩ <;> rw [hk] at hk2 <;> simp at hk2
        · obtain ⟨h', _, rh, hfh, _, hc2⟩ := mem_perHand hhand
          rcases hc2 with ⟨hk, _⟩ | hloc
          · rcases hks with hk2 | ⟨L', hk2⟩
            · rw [hk] at hk2
              injection hk2 with e1 e2
              subst e1
              subst e2
              rw [h1] at hfh
              exact Option.noConfusion hfh
            · rw [hk] at hk2
              simp at hk2
          · obtain ⟨l', _, rl, _, _, hk, _⟩ := mem_perLoc hloc
            rcases hks with hk2 | ⟨L', hk2⟩
            · rw [hk] at hk2
              simp at hk2
            · rw [hk] at hk2
              injection hk2 with e1 e2 e3
              subst e1
              subst e2
              rw [h1] at hfh
              exact Option.noConfusion hfh
      · obtain ⟨gp, _, h', _, _, _, hk, _⟩ := mem_groupEntries hR
        subst hk
        rcases hks with hk2 | ⟨L', hk2⟩ <;> simp at hk2
    · -- pitch-handedness-location dimension
      intro k d hm hks
      simp only [keyInSubtree] at hks
      subst hks
      simp only [get_detailed_pitch_splits] at hm
      rcases List.mem_append.1 hm with hL | hR
      · obtain ⟨q, _, hq⟩ := mem_pitchPhase.1 hL
        obtain ⟨rp, hfp, h5p, hc⟩ := mem_perPitch hq
        rcases hc with ⟨hk, _⟩ | hhand
        · simp at hk
        · obtain ⟨h', _, rh, hfh, _, hc2⟩ := mem_perHand hhand
          rcases hc2 with ⟨hk, _⟩ | hloc
          · simp at hk
          · obtain ⟨l', _, rl, hfl, _, hk, _⟩ := mem_perLoc hloc
            injection hk with e1 e2 e3
            subst e1
            subst e2
            subst e3
            rw [h1] at hfl
            exact Option.noConfusion hfl
      · obtain ⟨gp, _, h', _, _, _, hk, _⟩ := mem_groupEntries hR
        simp at hk
  · -- only that dimension is skipped in the detailed report
    apply detailed_congr_gated
    · intro p
      by_cases hin : inSubtree pr ⟨some p, none, none⟩ = true
      · rw [fetch_mask_none_of hin, ← inSubtree_overall_eq hin]
        exact h1
      · have hfa : inSubtree pr ⟨some p, none, none⟩ = false := by
          simpa using hin
        exact (fetch_mask_eq_of_not hfa).symm
    · intro p h hne
      by_cases hin : inSubtree pr ⟨some p, some h, none⟩ = true
      · rcases inSubtree_hand_eq hin with hpr | hpr
        · rw [fetch_mask_none_of hin, ← hpr]
          exact h1
        · rw [hpr] at h1
          exact absurd h1 hne
      · have hfa : inSubtree pr ⟨some p, some h, none⟩ = false := by
          simpa using hin
        exact (fetch_mask_eq_of_not hfa).symm
    · intro p h l hne1 hne2
      by_cases hin : inSubtree pr ⟨some p, some h, some l⟩ = true
      · rcases inSubtree_loc_eq hin with hpr | hpr | hpr
        · rw [fetch_mask_none_of hin, ← hpr]
          exact h1
        · rw [hpr] at h1
          exact absurd h1 hne1
        · rw [hpr] at h1
          exact absurd h1 hne2
      · have hfa : inSubtree pr ⟨some p, some h, some l⟩ = false := by
          simpa using hin
        exact (fetch_mask_eq_of_not hfa).symm
  · -- the basic-splits collection omits the failed split's key
    intro t ht hpn hpv s hmem
    obtain ⟨t2, ht2, hkey, hfetch⟩ := mem_basic_splits hmem
    have hteq : t = t2 := savant_queries_key_inj t ht t2 ht2 hkey
    subst hteq
    rw [hpn, hpv] at hfetch
    rw [h2] at hfetch
    exact Option.noConfusion hfetch
  · -- only that split is skipped in the basic-splits collection
    apply flatMapCongr
    intro t _
    by_cases hmask : t.1 = pn ∧ t.2.1 = pv
    · obtain ⟨ha, hb⟩ := hmask
      have hf1 : get_baseball_savant_data t.1 t.2.1 (senv t.1 t.2.1) = none := by
        rw [ha, hb]
        exact h2
      have hf2m : get_baseball_savant_data t.1 t.2.1
          (maskSavant senv pn pv t.1 t.2.1) = none := by
        have hmv : maskSavant senv pn pv t.1 t.2.1 = notFoundResponse := by
          simp [maskSavant, ha, hb]
        rw [hmv]
        exact savant_none_of_status (by simp [notFoundResponse])
      rw [hf1, hf2m]
    · have hmv : maskSavant senv pn pv t.1 t.2.1 = senv t.1 t.2.1 := by
        simp only [maskSavant, if_neg hmask]
      rw [hmv]

/-- C7 witness: with the four-seam-fastball dimension returning 404 and the
vs-LHP basic-split query returning 404, both fetchers parse to "no data". -/
theorem detailed_splits_skip_on_error_witness :
    fetchSplit envNoFF ⟨some "FF", none, none⟩ = none ∧
    get_baseball_savant_data "pitcher_throws" "L"
      (savantEnv404 "pitcher_throws" "L") = none :=
  ⟨(detailed_splits_skip_on_error envNoFF savantEnv404 ⟨some "FF", none, none⟩
      "pitcher_throws" "L" 0 2024 (by decide) (by decide)).1,
   (detailed_splits_skip_on_error envNoFF savantEnv404 ⟨some "FF", none, none⟩
      "pitcher_throws" "L" 0 2024 (by decide) (by decide)).2.1⟩
